import Mathlib

/-!
Shallow embedding of `dmi_reader.py`: cross-platform DMI/SMBIOS identifier
acquisition with container detection, per-platform probes, a process-wide
cache and a fallback identifier source.

The host environment (file contents, subprocess outcomes, WMI query results,
hostname) is modelled explicitly as data; Python exceptions that escape a
function are modelled with `Except PyExc`; exceptions that the code catches
are modelled by the corresponding `Option`/variant in the environment.
Python dicts (string keys, insertion-ordered, no duplicate keys here) are
modelled as association lists.
-/

set_option autoImplicit false

namespace DmiReader

/-- Python values as produced by `json.loads` (numbers restricted to
integers, which suffices for the shapes considered here). -/
inductive Json where
  | null
  | bool (b : Bool)
  | num (n : Int)
  | str (s : String)
  | arr (xs : List Json)
  | obj (kvs : List (String × Json))

/-- Python truthiness (`if x:`) for `Json` values. -/
def Json.truthy : Json → Bool
  | .null => false
  | .bool b => b
  | .num n => n != 0
  | .str s => s != ""
  | .arr xs => !xs.isEmpty
  | .obj kvs => !kvs.isEmpty

/-- A Python dict with string keys and string values, in insertion order. -/
abbrev StrDict := List (String × String)

/-- A Python dict with string keys and arbitrary values, in insertion order. -/
abbrev Dict := List (String × Json)

/-- Inject a string-valued dict into a `Json`-valued dict (Python strings
are one case of Python objects). -/
def toJsonDict (m : StrDict) : Dict :=
  m.map (fun kv => (kv.1, Json.str kv.2))

/-- Python whitespace characters stripped by `str.strip()` (ASCII range). -/
def isPySpace (c : Char) : Bool :=
  c = ' ' || c = '\t' || c = '\n' || c = '\x0d' || c = '\x0b' || c = '\x0c'

/-- Model of Python `str.strip()`: drop whitespace from both ends. -/
def pyStrip (s : String) : String :=
  ⟨((s.data.dropWhile isPySpace).reverse.dropWhile isPySpace).reverse⟩

/-- The sentinel tuple `("", "None", "To be filled by O.E.M.")` used by the
source to reject placeholder values. -/
def invalidSentinels : List String :=
  ["", "None", "To be filled by O.E.M."]

/-- The guard `if value and value not in ("", "None", "To be filled by O.E.M.")`
applied to an already-stripped value. -/
def keepValue (v : String) : Bool :=
  v != "" && !(invalidSentinels.contains v)

/-- Python `x in s` substring test for strings (nonempty pattern). -/
def containsSub (hay pat : String) : Bool :=
  (hay.splitOn pat).length != 1

/-- Exceptions that can escape a function of the module. -/
inductive PyExc where
  | timeoutExpired
  | queueEmpty
deriving DecidableEq

/-! ## Container detection (`_is_container`) -/

/-- Environment seen by `_is_container`: existence of the two marker files
and the outcome of reading `/proc/self/cgroup` (`none` models an
`OSError`/`UnicodeDecodeError`, which the code catches). -/
structure ContainerEnv where
  dockerenvExists : Bool
  containerenvExists : Bool
  cgroup : Option String

/-- Container-runtime substrings checked inside the cgroup text. -/
def cgroupMarkers : List String :=
  ["docker", "containerd", "kubepods", "lxc", "podman"]

/-- Embedding of `_is_container`. -/
def _is_container (e : ContainerEnv) : Bool :=
  if e.dockerenvExists then true
  else if e.containerenvExists then true
  else
    match e.cgroup with
    | some cgroup => cgroupMarkers.any (fun x => containsSub cgroup x)
    | none => false

/-! ## Linux probe (`_read_dmi_linux`) -/

/-- Environment seen by `_read_dmi_linux`: the container-detection
environment, whether `/sys/class/dmi/id` is a directory, and the outcome of
reading each file under it (`none` models a caught read/decode error). -/
structure LinuxEnv where
  container : ContainerEnv
  dmiDirExists : Bool
  readFile : String → Option String

/-- The `fields` dict of `_read_dmi_linux`, in insertion order:
semantic key ↦ sysfs file name. -/
def linuxFields : List (String × String) :=
  [("system_uuid", "product_uuid"),
   ("board_serial", "board_serial"),
   ("chassis_serial", "chassis_serial"),
   ("product_name", "product_name"),
   ("manufacturer", "sys_vendor")]

/-- Embedding of `_read_dmi_linux`: per-field read, strip, sentinel filter;
`result or None` at the end. -/
def _read_dmi_linux (e : LinuxEnv) : Option StrDict :=
  if _is_container e.container then none
  else if !e.dmiDirExists then none
  else
    let result := linuxFields.filterMap (fun kf =>
      match e.readFile kf.2 with
      | some raw =>
        let value := pyStrip raw
        if keepValue value then some (kf.1, value) else none
      | none => none)
    if result.isEmpty then none else some result

/-! ## Windows probe (`_wmi_worker`, `_read_dmi_windows_with_timeout`) -/

/-- A `Win32_ComputerSystemProduct` row: `getattr(cs, "UUID", None)` and
`getattr(cs, "IdentifyingNumber", None)` (`none` = attribute absent or
`None`). -/
structure WmiCS where
  uuid : Option String
  identifyingNumber : Option String

/-- A `Win32_BIOS` row: `getattr(bios, "SerialNumber", None)`. -/
structure WmiBios where
  serialNumber : Option String

/-- Outcome of the WMI query inside the worker: `error` models any exception
(import failure, COM failure, query failure), which the worker catches,
converting it to a `None` message. -/
inductive WmiOutcome where
  | error
  | ok (cs_list : List WmiCS) (bios_list : List WmiBios)

/-- Embedding of `_wmi_worker`: the message the worker puts on the queue. -/
def _wmi_worker (o : WmiOutcome) : Option StrDict :=
  match o with
  | .error => none
  | .ok cs_list bios_list =>
    match cs_list, bios_list with
    | cs :: _, bios :: _ =>
      let r1 := match cs.uuid with
        | some u => if u != "" then [("system_uuid", pyStrip u)] else []
        | none => []
      let r2 := match cs.identifyingNumber with
        | some raw =>
          if raw != "" then
            let sn := pyStrip raw
            if keepValue sn then [("chassis_serial", sn)] else []
          else []
        | none => []
      let r3 := match bios.serialNumber with
        | some raw =>
          if raw != "" then
            let sn := pyStrip raw
            if keepValue sn then [("bios_serial", sn)] else []
          else []
        | none => []
      let result := r1 ++ r2 ++ r3
      if result.isEmpty then none else some result
    | _, _ => none

/-- Environment seen by the parent in `_read_dmi_windows_with_timeout`:
whether the worker is still alive after `join(timeout)`, whether a message
is available on the queue within the secondary 0.5 s window, and the
worker's own environment (only the worker writes to the queue, so a
delivered message is always the worker's message). -/
structure WinEnv where
  timedOut : Bool
  delivered : Bool
  worker : WmiOutcome

/-- Embedding of `_read_dmi_windows_with_timeout`: on timeout terminate the
worker and return `None`; otherwise `queue.get(timeout=0.5)`, which yields
the worker's message when one is available and raises `queue.Empty`
otherwise (the code has no handler for it). -/
def _read_dmi_windows_with_timeout (e : WinEnv) : Except PyExc (Option StrDict) :=
  if e.timedOut then .ok none
  else if e.delivered then .ok (_wmi_worker e.worker)
  else .error .queueEmpty

/-! ## macOS probe (`_read_dmi_macos`) -/

/-- The stdout of the `system_profiler` invocation, as far as `json.loads`
is concerned: empty string, nonempty but unparseable (`json.JSONDecodeError`,
which the code catches), or a parsed value. -/
inductive MacStdout where
  | emptyOut
  | malformed
  | parsed (j : Json)

/-- Outcome of `subprocess.run(["system_profiler", ...], timeout=3, ...)`:
it raises `TimeoutExpired` on timeout, raises an `OSError` (caught by the
code) e.g. when the command is missing, or completes with a return code and
stdout. -/
inductive MacOutcome where
  | timeout
  | oserror
  | completed (returncode : Int) (stdout : MacStdout)

/-- The extraction performed by `_read_dmi_macos` on the parsed stdout:
`data.get("SPHardwareDataType")` must be a truthy list, its first element a
dict, and its `platform_UUID` truthy. A top-level value that is not a dict
makes `data.get` raise `AttributeError`, which the except clause catches
(the `_ => none` case). -/
def macExtract (j : Json) : Option Dict :=
  match j with
  | .obj kvs =>
    match List.lookup "SPHardwareDataType" kvs with
    | some hw_list =>
      if !hw_list.truthy then none
      else
        match hw_list with
        | .arr (hw :: _) =>
          match hw with
          | .obj hkvs =>
            match List.lookup "platform_UUID" hkvs with
            | some uuid =>
              if uuid.truthy then some [("system_uuid", uuid)]
              else none
            | none => none
          | _ => none
        | _ => none
    | none => none
  | _ => none

/-- Embedding of `_read_dmi_macos`. `TimeoutExpired` is not in the
`except (json.JSONDecodeError, AttributeError, OSError)` clause, so it
escapes; the other failure modes are caught and yield `None`. -/
def _read_dmi_macos (o : MacOutcome) : Except PyExc (Option Dict) :=
  match o with
  | .timeout => .error .timeoutExpired
  | .oserror => .ok none
  | .completed rc out =>
    if rc != 0 then .ok none
    else
      match out with
      | .emptyOut => .ok none
      | .malformed => .ok none
      | .parsed j => .ok (macExtract j)

/-! ## Fallback identifiers (`_get_fallback_identifiers`) -/

/-- Environment seen by `_get_fallback_identifiers`: the outcome of reading
`/etc/machine-id` (`none` models a caught read/decode error) and
`platform.node()`. -/
structure FallbackEnv where
  machineId : Option String
  hostname : String

/-- Embedding of `_get_fallback_identifiers`. -/
def _get_fallback_identifiers (e : FallbackEnv) : StrDict :=
  let f1 := match e.machineId with
    | some raw =>
      let machine_id := pyStrip raw
      if machine_id != "" && machine_id != "unavailable" then
        [("machine_id", machine_id)]
      else []
    | none => []
  let f2 :=
    if e.hostname != "" && !(["localhost", "", "None"].contains e.hostname) then
      [("hostname", e.hostname)]
    else []
  f1 ++ f2

/-! ## Dispatch, cache and public accessor -/

/-- `sys.platform`, coarsened to the four branches of `_get_raw_dmi`
(`linux` stands for any value `startswith("linux")`). -/
inductive Platform where
  | linux
  | win32
  | darwin
  | other
deriving DecidableEq

/-- The whole host environment for one call into the module. -/
structure Env where
  platform : Platform
  linuxEnv : LinuxEnv
  winEnv : WinEnv
  macEnv : MacOutcome
  fallbackEnv : FallbackEnv

/-- Embedding of `_get_raw_dmi`: pure OS dispatch. -/
def _get_raw_dmi (e : Env) : Except PyExc (Option Dict) :=
  match e.platform with
  | .linux => .ok ((_read_dmi_linux e.linuxEnv).map toJsonDict)
  | .win32 =>
    match _read_dmi_windows_with_timeout e.winEnv with
    | .ok d => .ok (d.map toJsonDict)
    | .error ex => .error ex
  | .darwin => _read_dmi_macos e.macEnv
  | .other => .ok none

/-- The module-level cache: `_dmi_cache` and `_cache_initialized`
(named `populated` here). -/
structure CacheState where
  dmiCache : Option Dict
  populated : Bool

/-- The state at module import: `_dmi_cache = None`,
`_cache_initialized = False`. -/
def initialState : CacheState := ⟨none, false⟩

/-- Embedding of `_get_cached_dmi` (sequential view of the double-checked
lock): if the raw probe raises, the flag is never set and the exception
propagates with the state unchanged. -/
def _get_cached_dmi (s : CacheState) (e : Env) :
    Except PyExc (Option Dict × CacheState) :=
  if s.populated then .ok (s.dmiCache, s)
  else
    match _get_raw_dmi e with
    | .ok d => .ok (d, ⟨d, true⟩)
    | .error ex => .error ex

/-- Embedding of `get_dmi_info`, the public accessor. -/
def get_dmi_info (s : CacheState) (e : Env) (include_fallback : Bool) :
    Except PyExc (Option Dict × CacheState) :=
  match _get_cached_dmi s e with
  | .error ex => .error ex
  | .ok (dmi_data, s1) =>
    match dmi_data with
    | some d => .ok (some d, s1)
    | none =>
      if include_fallback then
        let fallback := toJsonDict (_get_fallback_identifiers e.fallbackEnv)
        .ok ((if fallback.isEmpty then none else some fallback), s1)
      else .ok (none, s1)

/-- The successful shape of the parsed `system_profiler` output: a dict
whose `SPHardwareDataType` entry is a nonempty list whose first element is
a dict with a truthy `platform_UUID`; every other shape is "unexpected". -/
def macGoodShape (j : Json) : Bool :=
  match j with
  | .obj kvs =>
    match List.lookup "SPHardwareDataType" kvs with
    | some (.arr (hw :: _)) =>
      match hw with
      | .obj hkvs =>
        match List.lookup "platform_UUID" hkvs with
        | some uuid => uuid.truthy
        | none => false
      | _ => false
    | some _ => false
    | none => false
  | _ => false

/-- An optional dict that is either absent or a mapping with at least one
key (never a present-but-empty map). -/
def dictOk (d : Option Dict) : Prop :=
  ∀ m : Dict, d = some m → m ≠ []

/-! ## Helper lemmas -/

/-- A value passing the sentinel guard is not a sentinel-invalid string. -/
theorem keep_not_sentinel {v : String} (h : keepValue v = true) :
    invalidSentinels.contains v = false := by
  unfold keepValue at h
  rcases Bool.and_eq_true_iff.mp h with ⟨-, h2⟩
  simpa using h2

/-- A present Linux probe result is a nonempty map. -/
theorem read_dmi_linux_ne_nil {e : LinuxEnv} {m : StrDict}
    (h : _read_dmi_linux e = some m) : m ≠ [] := by
  unfold _read_dmi_linux at h
  split at h
  · exact Option.noConfusion h
  · split at h
    · exact Option.noConfusion h
    · dsimp only at h
      split at h
      · exact Option.noConfusion h
      · next hne =>
        injection h with h2
        subst h2
        intro hnil
        exact hne (by simp [hnil])

/-- A present worker message is a nonempty map. -/
theorem wmi_worker_ne_nil {o : WmiOutcome} {m : StrDict}
    (h : _wmi_worker o = some m) : m ≠ [] := by
  cases o with
  | error => exact Option.noConfusion h
  | ok cs_list bios_list =>
    cases cs_list with
    | nil => exact Option.noConfusion h
    | cons cs cl =>
      cases bios_list with
      | nil => exact Option.noConfusion h
      | cons bios bl =>
        simp only [_wmi_worker] at h
        split at h
        · exact Option.noConfusion h
        · next hne =>
          injection h with h2
          subst h2
          intro hnil
          exact hne (by rw [hnil]; rfl)

/-- A present macOS extraction is the singleton `system_uuid` map carrying a
truthy value. -/
theorem macExtract_some {j : Json} {m : Dict} (h : macExtract j = some m) :
    ∃ u : Json, u.truthy = true ∧ m = [("system_uuid", u)] := by
  cases j with
  | obj kvs =>
    simp only [macExtract] at h
    cases hl : List.lookup "SPHardwareDataType" kvs with
    | none => simp [hl] at h
    | some hw =>
      rw [hl] at h
      cases hw with
      | arr xs =>
        cases xs with
        | nil => simp [Json.truthy] at h
        | cons hw0 rest =>
          cases hw0 with
          | obj hkvs =>
            cases hu : List.lookup "platform_UUID" hkvs with
            | none => simp [hu, Json.truthy] at h
            | some u =>
              simp [hu, Json.truthy] at h
              exact ⟨u, h.1, h.2.symm⟩
          | null => simp [Json.truthy] at h
          | bool b => simp [Json.truthy] at h
          | num n => simp [Json.truthy] at h
          | str s => simp [Json.truthy] at h
          | arr ys => simp [Json.truthy] at h
      | null => simp [Json.truthy] at h
      | bool b => simp [Json.truthy] at h
      | num n => simp [Json.truthy] at h
      | str s => simp [Json.truthy, ite_self] at h
      | obj okvs => simp [Json.truthy, ite_self] at h
  | null => exact Option.noConfusion h
  | bool b => exact Option.noConfusion h
  | num n => exact Option.noConfusion h
  | str s => exact Option.noConfusion h
  | arr xs => exact Option.noConfusion h

/-- `toJsonDict` preserves nonemptiness. -/
theorem toJsonDict_ne_nil {m : StrDict} (h : m ≠ []) : toJsonDict m ≠ [] := by
  cases m with
  | nil => exact absurd rfl h
  | cons a l => simp [toJsonDict]

/-- The Windows probe, when it returns normally with a present map, returns
a nonempty one. -/
theorem read_dmi_windows_ok {e : WinEnv} {d : Option StrDict}
    (h : _read_dmi_windows_with_timeout e = .ok d) :
    ∀ m : StrDict, d = some m → m ≠ [] := by
  intro m hm
  subst hm
  unfold _read_dmi_windows_with_timeout at h
  split at h
  · injection h with h2
    exact Option.noConfusion h2
  · split at h
    · injection h with h2
      exact wmi_worker_ne_nil h2
    · exact Except.noConfusion h

/-- The raw OS-dispatched probe never produces a present-but-empty map. -/
theorem get_raw_dmi_ok {e : Env} {d : Option Dict}
    (h : _get_raw_dmi e = .ok d) : dictOk d := by
  intro m hm
  subst hm
  obtain ⟨pf, le, we, me, fe⟩ := e
  cases pf with
  | linux =>
    injection h with h2
    cases hr : _read_dmi_linux le with
    | none => rw [hr] at h2; simp at h2
    | some ml =>
      rw [hr] at h2
      simp only [Option.map_some'] at h2
      injection h2 with h3
      rw [← h3]
      exact toJsonDict_ne_nil (read_dmi_linux_ne_nil hr)
  | win32 =>
    cases hwp : _read_dmi_windows_with_timeout we with
    | error ex =>
      rw [show _get_raw_dmi ⟨.win32, le, we, me, fe⟩ =
        (match _read_dmi_windows_with_timeout we with
         | .ok dd => .ok (dd.map toJsonDict)
         | .error ex => .error ex) from rfl, hwp] at h
      exact Except.noConfusion h
    | ok dw =>
      rw [show _get_raw_dmi ⟨.win32, le, we, me, fe⟩ =
        (match _read_dmi_windows_with_timeout we with
         | .ok dd => .ok (dd.map toJsonDict)
         | .error ex => .error ex) from rfl, hwp] at h
      injection h with h2
      cases dw with
      | none => simp at h2
      | some mw =>
        simp only [Option.map_some'] at h2
        injection h2 with h3
        rw [← h3]
        exact toJsonDict_ne_nil (read_dmi_windows_ok hwp mw rfl)
  | darwin =>
    replace h : _read_dmi_macos me = .ok (some m) := h
    cases me with
    | timeout => exact Except.noConfusion h
    | oserror =>
      injection h with h2
      exact Option.noConfusion h2
    | completed rc out =>
      simp only [_read_dmi_macos] at h
      split at h
      · injection h with h2
        exact Option.noConfusion h2
      · cases out with
        | emptyOut => injection h with h2; exact Option.noConfusion h2
        | malformed => injection h with h2; exact Option.noConfusion h2
        | parsed j =>
          injection h with h2
          obtain ⟨u, -, hmm⟩ := macExtract_some h2
          rw [hmm]
          simp
  | other =>
    injection h with h2
    exact Option.noConfusion h2

/-! ## Claims -/

/-- C6: the container detector returns true whenever `/.dockerenv` exists,
regardless of the cgroup contents; and when neither marker file exists and
the cgroup read fails, it returns false rather than raising. -/
theorem c6_container_detector :
    (∀ e : ContainerEnv, e.dockerenvExists = true → _is_container e = true) ∧
    (∀ e : ContainerEnv, e.dockerenvExists = false → e.containerenvExists = false →
      e.cgroup = none → _is_container e = false) := by
  constructor
  · intro e h
    simp [_is_container, h]
  · intro e h1 h2 h3
    simp [_is_container, h1, h2, h3]

/-- Witness for C6 at concrete environments. -/
theorem c6_container_detector_witness :
    _is_container ⟨true, false, some "0::/kubepods/x"⟩ = true ∧
    _is_container ⟨false, false, none⟩ = false :=
  ⟨c6_container_detector.1 _ rfl, c6_container_detector.2 _ rfl rfl rfl⟩

/-- C7: if the DMI sysfs directory exists but every individual field read
fails or is filtered out by the sentinel guard, the Linux probe returns
"no data" (`None`), never an empty map. -/
theorem c7_linux_all_reads_filtered :
    ∀ e : LinuxEnv, e.dmiDirExists = true →
      (∀ kf ∈ linuxFields, ∀ raw, e.readFile kf.2 = some raw →
        keepValue (pyStrip raw) = false) →
      _read_dmi_linux e = none := by
  intro e hdir hall
  unfold _read_dmi_linux
  split
  · rfl
  · rw [hdir]
    simp only [Bool.not_true, Bool.false_eq_true, if_false]
    have hnil : (linuxFields.filterMap (fun kf =>
        match e.readFile kf.2 with
        | some raw =>
          let value := pyStrip raw
          if keepValue value then some (kf.1, value) else none
        | none => none)) = [] := by
      rw [List.filterMap_eq_nil_iff]
      intro kf hkf
      cases hr : e.readFile kf.2 with
      | none => rfl
      | some raw =>
        have := hall kf hkf raw hr
        simp [this]
    simp [hnil]

/-- Witness for C7: directory present, every file reads as the OEM
placeholder sentinel. -/
theorem c7_linux_all_reads_filtered_witness :
    _read_dmi_linux ⟨⟨false, false, none⟩, true,
      fun _ => some "To be filled by O.E.M."⟩ = none := by
  apply c7_linux_all_reads_filtered _ rfl
  intro kf _ raw hr
  cases hr
  decide

/-- C3 (code bug): when the worker finishes within the timeout but no
message is available on the queue within the 0.5 s secondary window,
`_read_dmi_windows_with_timeout` does not return the empty result as the
spec states: `queue.get(timeout=0.5)` raises `queue.Empty`, which no
handler catches. -/
theorem c3_secondary_read_raises :
    _read_dmi_windows_with_timeout ⟨false, false, .error⟩ =
      .error .queueEmpty := rfl

/-- C2 (code bug): on macOS, when `system_profiler` exceeds the 3-second
timeout, `subprocess.TimeoutExpired` is not in the probe's except clause
and escapes through `get_dmi_info` to the caller, contradicting the policy
that no exception crosses the public accessor boundary. -/
theorem c2_macos_timeout_escapes :
    get_dmi_info initialState
      ⟨.darwin, ⟨⟨false, false, none⟩, false, fun _ => none⟩,
        ⟨false, false, .error⟩, .timeout, ⟨none, ""⟩⟩ true =
      .error .timeoutExpired := rfl

/-- C8: the macOS probe returns `{"system_uuid": "ABC-123"}` on the
documented successful output, "no data" on an empty `SPHardwareDataType`
list, "no data" on unparseable stdout, and "no data" on every parsed value
that does not have the expected shape. -/
theorem c8_macos_probe :
    _read_dmi_macos (.completed 0 (.parsed (.obj [("SPHardwareDataType",
        .arr [.obj [("platform_UUID", .str "ABC-123")]])]))) =
      .ok (some [("system_uuid", .str "ABC-123")]) ∧
    _read_dmi_macos (.completed 0 (.parsed (.obj [("SPHardwareDataType",
        .arr [])]))) = .ok none ∧
    _read_dmi_macos (.completed 0 .malformed) = .ok none ∧
    (∀ j : Json, macGoodShape j = false →
      _read_dmi_macos (.completed 0 (.parsed j)) = .ok none) := by
  refine ⟨rfl, rfl, rfl, ?_⟩
  intro j h
  have hstep : _read_dmi_macos (.completed 0 (.parsed j)) = .ok (macExtract j) := rfl
  rw [hstep]
  suffices hx : macExtract j = none by rw [hx]
  cases j with
  | obj kvs =>
    simp only [macGoodShape] at h
    simp only [macExtract]
    cases hl : List.lookup "SPHardwareDataType" kvs with
    | none => simp [hl]
    | some hw =>
      rw [hl] at h
      cases hw with
      | arr xs =>
        cases xs with
        | nil => simp [hl, Json.truthy]
        | cons hw0 rest =>
          cases hw0 with
          | obj hkvs =>
            cases hu : List.lookup "platform_UUID" hkvs with
            | none => simp [hl, hu, Json.truthy]
            | some u =>
              simp [hu, Json.truthy] at h
              simp [hl, hu, Json.truthy, h]
          | null => simp [hl, Json.truthy]
          | bool b => simp [hl, Json.truthy]
          | num n => simp [hl, Json.truthy]
          | str s => simp [hl, Json.truthy]
          | arr ys => simp [hl, Json.truthy]
      | null => simp [hl, Json.truthy]
      | bool b => simp [hl, Json.truthy]
      | num n => simp [hl, Json.truthy]
      | str s => simp [hl, Json.truthy, ite_self]
      | obj okvs => simp [hl, Json.truthy, ite_self]
  | null => rfl
  | bool b => rfl
  | num n => rfl
  | str s => rfl
  | arr xs => rfl

/-- Witness for C8 at a concrete unexpected shape. -/
theorem c8_macos_probe_witness :
    _read_dmi_macos (.completed 0 (.parsed .null)) = .ok none :=
  c8_macos_probe.2.2.2 .null rfl

/-- C1 (counterexample): the Windows worker stores `cs.UUID.strip()` behind
only a truthiness check, with no sentinel filter, so a WMI UUID of `"None"`
is included in the probe result even though `"None"` is a sentinel-invalid
string. -/
theorem c1_wmi_uuid_sentinel_kept :
    _wmi_worker (.ok [⟨some "None", none⟩] [⟨none⟩]) =
      some [("system_uuid", "None")] ∧
    invalidSentinels.contains "None" = true :=
  ⟨rfl, rfl⟩

/-- C1 (amended): sentinel filtering holds for every Linux probe field and
for the Windows worker fields other than `system_uuid`; the macOS probe
stores exactly one `system_uuid` entry whose value is any truthy
`platform_UUID`, unfiltered. -/
theorem c1_sentinel_filtering :
    (∀ (e : LinuxEnv) (m : StrDict) (k v : String),
      _read_dmi_linux e = some m → (k, v) ∈ m →
      invalidSentinels.contains v = false) ∧
    (∀ (o : WmiOutcome) (m : StrDict) (k v : String),
      _wmi_worker o = some m → (k, v) ∈ m → k ≠ "system_uuid" →
      invalidSentinels.contains v = false) ∧
    (∀ (o : MacOutcome) (m : Dict),
      _read_dmi_macos o = .ok (some m) →
      ∃ u : Json, u.truthy = true ∧ m = [("system_uuid", u)]) := by
  refine ⟨?_, ?_, ?_⟩
  · intro e m k v hm hmem
    unfold _read_dmi_linux at hm
    split at hm
    · exact Option.noConfusion hm
    · split at hm
      · exact Option.noConfusion hm
      · dsimp only at hm
        split at hm
        · exact Option.noConfusion hm
        · injection hm with h2
          subst h2
          rcases List.mem_filterMap.mp hmem with ⟨kf, hkf, hf⟩
          cases hr : e.readFile kf.2 with
          | none => rw [hr] at hf; exact Option.noConfusion hf
          | some raw =>
            rw [hr] at hf
            dsimp only at hf
            split at hf
            · next hkeep =>
              injection hf with h3
              injection h3 with hk hv
              rw [← hv]
              exact keep_not_sentinel hkeep
            · exact Option.noConfusion hf
  · intro o m k v hm hmem hk
    cases o with
    | error => exact Option.noConfusion hm
    | ok cs_list bios_list =>
      cases cs_list with
      | nil => exact Option.noConfusion hm
      | cons cs cl =>
        cases bios_list with
        | nil => exact Option.noConfusion hm
        | cons bios bl =>
          obtain ⟨csu, csi⟩ := cs
          obtain ⟨bsn⟩ := bios
          simp only [_wmi_worker] at hm
          split at hm
          · exact Option.noConfusion hm
          · injection hm with h2
            subst h2
            rcases List.mem_append.mp hmem with h12 | h3
            · rcases List.mem_append.mp h12 with h1 | h2m
              · exfalso
                apply hk
                cases csu with
                | none => simp at h1
                | some u =>
                  dsimp only at h1
                  split at h1
                  · simp at h1
                    exact h1.1
                  · simp at h1
              · cases csi with
                | none => simp at h2m
                | some raw =>
                  dsimp only at h2m
                  split at h2m
                  · split at h2m
                    · next hkeep =>
                      simp at h2m
                      rw [h2m.2]
                      exact keep_not_sentinel hkeep
                    · simp at h2m
                  · simp at h2m
            · cases bsn with
              | none => simp at h3
              | some raw =>
                dsimp only at h3
                split at h3
                · split at h3
                  · next hkeep =>
                    simp at h3
                    rw [h3.2]
                    exact keep_not_sentinel hkeep
                  · simp at h3
                · simp at h3
  · intro o m hm
    cases o with
    | timeout => exact Except.noConfusion hm
    | oserror =>
      injection hm with h2
      exact Option.noConfusion h2
    | completed rc out =>
      simp only [_read_dmi_macos] at hm
      split at hm
      · injection hm with h2
        exact Option.noConfusion h2
      · cases out with
        | emptyOut => injection hm with h2; exact Option.noConfusion h2
        | malformed => injection hm with h2; exact Option.noConfusion h2
        | parsed j =>
          injection hm with h2
          exact macExtract_some h2

/-- Witness for C1 (amended) at a concrete Linux environment. -/
theorem c1_sentinel_filtering_witness :
    invalidSentinels.contains "XYZ-42" = false :=
  c1_sentinel_filtering.1
    ⟨⟨false, false, none⟩, true,
      fun f => if f = "product_uuid" then some "XYZ-42" else none⟩
    [("system_uuid", "XYZ-42")] "system_uuid" "XYZ-42" (by decide) (by decide)

/-- C4 (counterexample): with no DMI data cached, two calls with
`include_fallback = true` recompute the fallback identifiers each time, so
a change of `/etc/machine-id` between the calls changes the result. -/
theorem c4_fallback_changes_between_calls :
    get_dmi_info initialState
      ⟨.other, ⟨⟨false, false, none⟩, false, fun _ => none⟩,
        ⟨false, false, .error⟩, .oserror, ⟨some "machine-aaa", "localhost"⟩⟩ true =
      .ok (some [("machine_id", .str "machine-aaa")], ⟨none, true⟩) ∧
    get_dmi_info ⟨none, true⟩
      ⟨.other, ⟨⟨false, false, none⟩, false, fun _ => none⟩,
        ⟨false, false, .error⟩, .oserror, ⟨some "machine-bbb", "localhost"⟩⟩ true =
      .ok (some [("machine_id", .str "machine-bbb")], ⟨none, true⟩) ∧
    (some [("machine_id", Json.str "machine-aaa")] : Option Dict) ≠
      some [("machine_id", Json.str "machine-bbb")] := by
  refine ⟨rfl, rfl, ?_⟩
  intro hc
  injection hc with h1
  injection h1 with h2 h3
  injection h2 with h4 h5
  injection h5 with h6
  exact absurd h6 (by decide)

/-- Shape of any successful call through the accessor: the cache ends up
populated, and the result either equals the present cached map or, with an
absent cache, is determined by `include_fallback` and the fallback map. -/
theorem get_dmi_info_shape {s : CacheState} {e : Env} {b : Bool}
    {r : Option Dict} {s1 : CacheState}
    (h : get_dmi_info s e b = .ok (r, s1)) :
    s1.populated = true ∧
    ((∃ d : Dict, s1.dmiCache = some d ∧ r = some d) ∨
     (s1.dmiCache = none ∧
       (b = false → r = none) ∧
       (b = true → r =
         (if (toJsonDict (_get_fallback_identifiers e.fallbackEnv)).isEmpty
          then none
          else some (toJsonDict (_get_fallback_identifiers e.fallbackEnv)))))) := by
  obtain ⟨c, p⟩ := s
  cases p with
  | true =>
    cases c with
    | some d =>
      replace h : (Except.ok ((some d : Option Dict), (⟨some d, true⟩ : CacheState)) :
          Except PyExc (Option Dict × CacheState)) = .ok (r, s1) := h
      injection h with h2
      injection h2 with h3 h4
      exact ⟨by rw [← h4], Or.inl ⟨d, by rw [← h4], h3.symm⟩⟩
    | none =>
      cases b with
      | false =>
        replace h : (Except.ok ((none : Option Dict), (⟨none, true⟩ : CacheState)) :
            Except PyExc (Option Dict × CacheState)) = .ok (r, s1) := h
        injection h with h2
        injection h2 with h3 h4
        exact ⟨by rw [← h4], Or.inr ⟨by rw [← h4], fun _ => h3.symm,
          fun hbt => Bool.noConfusion hbt⟩⟩
      | true =>
        replace h : (Except.ok
            ((if (toJsonDict (_get_fallback_identifiers e.fallbackEnv)).isEmpty
              then none
              else some (toJsonDict (_get_fallback_identifiers e.fallbackEnv))),
             (⟨none, true⟩ : CacheState)) :
            Except PyExc (Option Dict × CacheState)) = .ok (r, s1) := h
        injection h with h2
        injection h2 with h3 h4
        exact ⟨by rw [← h4], Or.inr ⟨by rw [← h4],
          fun hbf => Bool.noConfusion hbf, fun _ => h3.symm⟩⟩
  | false =>
    unfold get_dmi_info _get_cached_dmi at h
    cases hraw : _get_raw_dmi e with
    | error ex =>
      rw [hraw] at h
      exact Except.noConfusion h
    | ok dd =>
      rw [hraw] at h
      cases dd with
      | some m =>
        replace h : (Except.ok ((some m : Option Dict), (⟨some m, true⟩ : CacheState)) :
            Except PyExc (Option Dict × CacheState)) = .ok (r, s1) := h
        injection h with h2
        injection h2 with h3 h4
        exact ⟨by rw [← h4], Or.inl ⟨m, by rw [← h4], h3.symm⟩⟩
      | none =>
        cases b with
        | false =>
          replace h : (Except.ok ((none : Option Dict), (⟨none, true⟩ : CacheState)) :
              Except PyExc (Option Dict × CacheState)) = .ok (r, s1) := h
          injection h with h2
          injection h2 with h3 h4
          exact ⟨by rw [← h4], Or.inr ⟨by rw [← h4], fun _ => h3.symm,
            fun hbt => Bool.noConfusion hbt⟩⟩
        | true =>
          replace h : (Except.ok
              ((if (toJsonDict (_get_fallback_identifiers e.fallbackEnv)).isEmpty
                then none
                else some (toJsonDict (_get_fallback_identifiers e.fallbackEnv))),
               (⟨none, true⟩ : CacheState)) :
              Except PyExc (Option Dict × CacheState)) = .ok (r, s1) := h
          injection h with h2
          injection h2 with h3 h4
          exact ⟨by rw [← h4], Or.inr ⟨by rw [← h4],
            fun hbf => Bool.noConfusion hbf, fun _ => h3.symm⟩⟩

/-- C4 (amended): two successive calls with the same `include_fallback`
return identical results whenever `include_fallback` is false or the cache
holds a present DMI result after the first call; only the absent-cache,
fallback-enabled case may differ across environment changes. -/
theorem c4_cache_idempotence :
    ∀ (s : CacheState) (e1 e2 : Env) (b : Bool) (r1 r2 : Option Dict)
      (s1 s2 : CacheState),
      get_dmi_info s e1 b = .ok (r1, s1) →
      get_dmi_info s1 e2 b = .ok (r2, s2) →
      (b = false ∨ s1.dmiCache ≠ none) →
      r1 = r2 := by
  intro s e1 e2 b r1 r2 s1 s2 h1 h2 hside
  obtain ⟨hp1, hc1⟩ := get_dmi_info_shape h1
  obtain ⟨s1c, s1p⟩ := s1
  replace hp1 : s1p = true := hp1
  subst hp1
  rcases hc1 with ⟨d, hcache, hr1⟩ | ⟨hcache, hbf, -⟩
  · replace hcache : s1c = some d := hcache
    subst hcache
    replace h2 : (Except.ok ((some d : Option Dict), (⟨some d, true⟩ : CacheState)) :
        Except PyExc (Option Dict × CacheState)) = .ok (r2, s2) := h2
    injection h2 with h2a
    injection h2a with h2b h2c
    rw [hr1, ← h2b]
  · replace hcache : s1c = none := hcache
    subst hcache
    rcases hside with hb | hnn
    · subst hb
      replace h2 : (Except.ok ((none : Option Dict), (⟨none, true⟩ : CacheState)) :
          Except PyExc (Option Dict × CacheState)) = .ok (r2, s2) := h2
      injection h2 with h2a
      injection h2a with h2b h2c
      rw [hbf rfl, ← h2b]
    · exact absurd rfl hnn

/-- Witness for C4 (amended) with a populated cache. -/
theorem c4_cache_idempotence_witness :
    (some [("system_uuid", Json.str "U-1")] : Option Dict) =
      some [("system_uuid", Json.str "U-1")] :=
  c4_cache_idempotence ⟨some [("system_uuid", Json.str "U-1")], true⟩
    ⟨.other, ⟨⟨false, false, none⟩, false, fun _ => none⟩,
      ⟨false, false, .error⟩, .oserror, ⟨none, ""⟩⟩
    ⟨.other, ⟨⟨false, false, none⟩, false, fun _ => none⟩,
      ⟨false, false, .error⟩, .oserror, ⟨none, ""⟩⟩
    true (some [("system_uuid", Json.str "U-1")])
    (some [("system_uuid", Json.str "U-1")])
    ⟨some [("system_uuid", Json.str "U-1")], true⟩
    ⟨some [("system_uuid", Json.str "U-1")], true⟩
    rfl rfl (Or.inr (fun hc => Option.noConfusion hc))

/-- C5: the accessor composes cache and fallback as specified: a present
cached result is returned unchanged for either flag value; an absent one
yields the fallback map (or "no data" if that map is empty) when
`include_fallback` is true, and "no data" when it is false. -/
theorem c5_accessor_composition :
    ∀ (s : CacheState) (e : Env) (d : Option Dict) (s1 : CacheState),
      _get_cached_dmi s e = .ok (d, s1) →
      (∀ m : Dict, d = some m → ∀ b : Bool,
        get_dmi_info s e b = .ok (some m, s1)) ∧
      (d = none → get_dmi_info s e true =
        .ok ((if (toJsonDict (_get_fallback_identifiers e.fallbackEnv)).isEmpty
          then none
          else some (toJsonDict (_get_fallback_identifiers e.fallbackEnv))), s1)) ∧
      (d = none → get_dmi_info s e false = .ok (none, s1)) := by
  intro s e d s1 h
  refine ⟨?_, ?_, ?_⟩
  · intro m hm b
    subst hm
    unfold get_dmi_info
    rw [h]
  · intro hd
    subst hd
    unfold get_dmi_info
    rw [h]
    rfl
  · intro hd
    subst hd
    unfold get_dmi_info
    rw [h]
    rfl

/-- Witness for C5: populated-empty cache plus fallback data. -/
theorem c5_accessor_composition_witness :
    get_dmi_info ⟨none, true⟩
      ⟨.other, ⟨⟨false, false, none⟩, false, fun _ => none⟩,
        ⟨false, false, .error⟩, .oserror, ⟨some "mid-0123", "node-9"⟩⟩ true =
      .ok (some [("machine_id", Json.str "mid-0123"), ("hostname", Json.str "node-9")],
        ⟨none, true⟩) := by
  have h := (c5_accessor_composition ⟨none, true⟩
    ⟨.other, ⟨⟨false, false, none⟩, false, fun _ => none⟩,
      ⟨false, false, .error⟩, .oserror, ⟨some "mid-0123", "node-9"⟩⟩
    none ⟨none, true⟩ rfl).2.1 rfl
  rw [h]
  rfl

/-- C9: the fallback source keeps `machine_id` only when the machine-id file
was readable and its value is not `"unavailable"`, keeps `hostname` only
when it is none of `""`, `"None"`, `"localhost"`, and on a host with no DMI
data, machine-id `"abcdef123"` and hostname `"worker-7"`, the accessor with
fallback returns exactly those two entries. -/
theorem c9_fallback_identifiers :
    (∀ (e : FallbackEnv) (v : String),
      ("machine_id", v) ∈ _get_fallback_identifiers e →
      (∃ raw, e.machineId = some raw) ∧ v ≠ "unavailable") ∧
    (∀ (e : FallbackEnv) (v : String),
      ("hostname", v) ∈ _get_fallback_identifiers e →
      v ≠ "" ∧ v ≠ "None" ∧ v ≠ "localhost") ∧
    get_dmi_info initialState
      ⟨.other, ⟨⟨false, false, none⟩, false, fun _ => none⟩,
        ⟨false, false, .error⟩, .oserror, ⟨some "abcdef123", "worker-7"⟩⟩ true =
      .ok (some [("machine_id", Json.str "abcdef123"),
        ("hostname", Json.str "worker-7")], ⟨none, true⟩) := by
  refine ⟨?_, ?_, rfl⟩
  · intro e v hmem
    obtain ⟨emi, ehost⟩ := e
    simp only [_get_fallback_identifiers] at hmem
    rcases List.mem_append.mp hmem with h1 | h2
    · cases emi with
      | none => simp at h1
      | some raw =>
        dsimp only at h1
        split at h1
        · next hcond =>
          simp at h1
          rcases Bool.and_eq_true_iff.mp hcond with ⟨-, hc2⟩
          refine ⟨⟨raw, rfl⟩, ?_⟩
          intro heq
          rw [← h1] at hc2
          rw [heq] at hc2
          exact absurd hc2 (by decide)
        · simp at h1
    · split at h2
      · exact absurd (show ("machine_id" : String) = "hostname" from
          congrArg Prod.fst (List.mem_singleton.mp h2)) (by decide)
      · simp at h2
  · intro e v hmem
    obtain ⟨emi, ehost⟩ := e
    simp only [_get_fallback_identifiers] at hmem
    rcases List.mem_append.mp hmem with h1 | h2
    · cases emi with
      | none => simp at h1
      | some raw =>
        dsimp only at h1
        split at h1
        · exact absurd (show ("hostname" : String) = "machine_id" from
            congrArg Prod.fst (List.mem_singleton.mp h1)) (by decide)
        · simp at h1
    · split at h2
      · next hcond =>
        simp at h2
        subst h2
        refine ⟨fun heq => ?_, fun heq => ?_, fun heq => ?_⟩ <;>
          rw [heq] at hcond <;> exact absurd hcond (by decide)
      · simp at h2

/-- Witness for C9 at a concrete fallback environment (with surrounding
whitespace stripped from the machine-id). -/
theorem c9_fallback_identifiers_witness :
    (∃ raw, (FallbackEnv.mk (some " abcdef123 ") "worker-7").machineId = some raw) ∧
      "abcdef123" ≠ "unavailable" :=
  c9_fallback_identifiers.1 ⟨some " abcdef123 ", "worker-7"⟩ "abcdef123" (by decide)

/-- C10: the accessor never returns a present-but-empty map: starting from
any state whose cache is absent-or-nonempty, a successful call returns
absence or a map with at least one key, and preserves that cache
invariant. -/
theorem c10_no_empty_map :
    ∀ (s : CacheState) (e : Env) (b : Bool) (r : Option Dict) (s1 : CacheState),
      dictOk s.dmiCache →
      get_dmi_info s e b = .ok (r, s1) →
      dictOk r ∧ dictOk s1.dmiCache := by
  intro s e b r s1 hs h
  have hcc : ∀ (d : Option Dict) (s1x : CacheState),
      _get_cached_dmi s e = .ok (d, s1x) → dictOk d ∧ dictOk s1x.dmiCache := by
    intro d s1x hc
    unfold _get_cached_dmi at hc
    split at hc
    · injection hc with h2
      injection h2 with h3 h4
      exact ⟨by rw [← h3]; exact hs, by rw [← h4]; exact hs⟩
    · cases hraw : _get_raw_dmi e with
      | error ex => rw [hraw] at hc; exact Except.noConfusion hc
      | ok dd =>
        rw [hraw] at hc
        replace hc : (Except.ok (dd, (⟨dd, true⟩ : CacheState)) :
            Except PyExc (Option Dict × CacheState)) = .ok (d, s1x) := hc
        injection hc with h2
        injection h2 with h3 h4
        have hdd := get_raw_dmi_ok hraw
        exact ⟨by rw [← h3]; exact hdd, by rw [← h4]; exact hdd⟩
  cases hcr : _get_cached_dmi s e with
  | error ex =>
    unfold get_dmi_info at h
    rw [hcr] at h
    exact Except.noConfusion h
  | ok p =>
    obtain ⟨d, s1x⟩ := p
    obtain ⟨hd, hs1x⟩ := hcc d s1x hcr
    unfold get_dmi_info at h
    rw [hcr] at h
    cases d with
    | some m =>
      replace h : (Except.ok ((some m : Option Dict), s1x) :
          Except PyExc (Option Dict × CacheState)) = .ok (r, s1) := h
      injection h with h2
      injection h2 with h3 h4
      exact ⟨by rw [← h3]; exact hd, by rw [← h4]; exact hs1x⟩
    | none =>
      cases b with
      | false =>
        replace h : (Except.ok ((none : Option Dict), s1x) :
            Except PyExc (Option Dict × CacheState)) = .ok (r, s1) := h
        injection h with h2
        injection h2 with h3 h4
        exact ⟨by rw [← h3]; exact fun m hm => Option.noConfusion hm,
          by rw [← h4]; exact hs1x⟩
      | true =>
        replace h : (Except.ok
            ((if (toJsonDict (_get_fallback_identifiers e.fallbackEnv)).isEmpty
              then none
              else some (toJsonDict (_get_fallback_identifiers e.fallbackEnv))), s1x) :
            Except PyExc (Option Dict × CacheState)) = .ok (r, s1) := h
        injection h with h2
        injection h2 with h3 h4
        refine ⟨?_, by rw [← h4]; exact hs1x⟩
        rw [← h3]
        intro m hm
        split at hm
        · exact Option.noConfusion hm
        · next hne =>
          injection hm with hm2
          subst hm2
          intro hnil
          exact hne (by rw [hnil]; rfl)

/-- Witness for C10 via the fallback path from the initial state. -/
theorem c10_no_empty_map_witness :
    dictOk (some [("machine_id", Json.str "m7"), ("hostname", Json.str "h7")]) ∧
      dictOk none :=
  c10_no_empty_map initialState
    ⟨.other, ⟨⟨false, false, none⟩, false, fun _ => none⟩,
      ⟨false, false, .error⟩, .oserror, ⟨some "m7", "h7"⟩⟩ true
    (some [("machine_id", Json.str "m7"), ("hostname", Json.str "h7")])
    ⟨none, true⟩ (fun _ hm => Option.noConfusion hm) rfl

end DmiReader
